import Mathlib

/-!
Verification of the OMO Platform media pipeline against its design document.

The Python sources are shallowly embedded: pure fragments become Lean
functions, the document store becomes explicit state (lists of records),
floating-point durations become rationals, and machine integers become
Nat/Int.  Each embedded definition is named after the Python function it
models and follows its control flow line by line.
-/

/- ======================================================================
   backend/transform/video/short.py — scene-duration estimation
   ====================================================================== -/

/-- Constant MIN_SCENE_SEC from short.py (minimum scene length, seconds). -/
def MIN_SCENE_SEC : ℚ := 3

/-- Constant MAX_SCENE_SEC from short.py (maximum scene length, seconds). -/
def MAX_SCENE_SEC : ℚ := 20

/-- Rounding to two decimal places, as performed by the Python expression
f-string formatting with two digits (round-half-to-even on the scaled
value).  Exact ties never occur for the inputs produced by
`safe_len_seconds` (shown in its bounds proof), so the idealised rational
rounding agrees with the floating-point formatting of the source. -/
def pyRound2 (q : ℚ) : ℚ :=
  let m : ℚ := q * 100
  let n : ℤ := Int.floor m
  let r : ℤ :=
    if 1 / 2 < m - n then n + 1
    else if m - n < 1 / 2 then n
    else if Even n then n else n + 1
  (r : ℚ) / 100

/-- VideoShortTransformer._safe_len_seconds:
n = max(1, len(text)); sec = n / 6.0; clamp to [MIN_SCENE_SEC,
MAX_SCENE_SEC]; round to two decimals. -/
def safe_len_seconds (text : String) : ℚ :=
  let n : ℚ := max 1 (text.length : ℚ)
  let sec : ℚ := n / 6
  pyRound2 (max MIN_SCENE_SEC (min MAX_SCENE_SEC sec))

/- ======================================================================
   backend/transform/video/compositor.py — duration resolution
   ====================================================================== -/

/-- VideoCompositor.create_video, lines 54-72: resolution of the clip
duration.  `duration` is the caller-supplied value (the transformer passes
the text-length estimate), `probed` is what `_get_audio_duration` would
return for the audio file (that helper returns 0.0 on every failure path).
Result `none` models `return False` (scene rejected); `some d` is the
duration used for the clip.  The probe is consulted only when the supplied
duration is absent or non-positive. -/
def create_video_duration (duration : Option ℚ) (probed : ℚ) : Option ℚ :=
  let d1 : Option ℚ :=
    match duration with
    | none => if 0 < probed then some probed else none
    | some d => if d ≤ 0 then (if 0 < probed then some probed else some d) else some d
  match d1 with
  | none => none
  | some d => if d ≤ 0 then none else some d

/- ======================================================================
   Bounds of pyRound2 on the clamped range
   ====================================================================== -/

theorem pyRound2_bounds {q : ℚ} (h1 : 3 ≤ q) (h2 : q ≤ 20) :
    3 ≤ pyRound2 q ∧ pyRound2 q ≤ 20 := by
  unfold pyRound2
  set m : ℚ := q * 100 with hm
  set n : ℤ := Int.floor m with hn
  have hnm : (n : ℚ) ≤ m := Int.floor_le m
  have h300 : (300 : ℤ) ≤ n := by
    rw [hn]
    exact Int.le_floor.mpr (by push_cast; linarith)
  have h2000 : n ≤ 2000 := by
    have : (n : ℚ) ≤ 2000 := le_trans hnm (by linarith)
    exact_mod_cast this
  set r : ℤ :=
    if 1 / 2 < m - n then n + 1
    else if m - n < 1 / 2 then n
    else if Even n then n else n + 1 with hr
  have hrlow : n ≤ r := by
    rw [hr]
    split_ifs <;> omega
  have hrhigh : r ≤ 2000 := by
    rw [hr]
    split_ifs with hc1 hc2 hc3
    · -- round up: m - n > 1/2, so n < m - 1/2 ≤ 1999.5
      have : (n : ℚ) < 2000 := by linarith
      have : n < 2000 := by exact_mod_cast this
      omega
    · omega
    · omega
    · -- tie with odd n: m - n = 1/2 exactly
      have htie : m - n = 1 / 2 := le_antisymm (not_lt.mp hc1) (not_lt.mp hc2)
      have : (n : ℚ) < 2000 := by linarith
      have : n < 2000 := by exact_mod_cast this
      omega
  constructor
  · have : (300 : ℚ) ≤ (r : ℚ) := by exact_mod_cast le_trans h300 hrlow
    linarith
  · have : (r : ℚ) ≤ 2000 := by exact_mod_cast hrhigh
    linarith

/-- Claim C6: if TTS synthesis fails for a narration text of length 60, the
fallback duration is exactly 10.0 seconds (60 / 6 chars-per-second), and in
general the fallback duration always lies within the configured
[MIN_SCENE_SEC, MAX_SCENE_SEC] = [3, 20] range. -/
theorem c6_silent_fallback_duration :
    (∀ s : String, s.length = 60 → safe_len_seconds s = 10) ∧
    (∀ s : String,
      MIN_SCENE_SEC ≤ safe_len_seconds s ∧ safe_len_seconds s ≤ MAX_SCENE_SEC) := by
  constructor
  · intro s h
    unfold safe_len_seconds pyRound2 MIN_SCENE_SEC MAX_SCENE_SEC
    rw [h]
    norm_num
  · intro s
    unfold safe_len_seconds MIN_SCENE_SEC MAX_SCENE_SEC
    set sec : ℚ := max 1 (s.length : ℚ) / 6 with hsec
    have h1 : 3 ≤ max 3 (min 20 sec) := le_max_left _ _
    have h2 : max 3 (min 20 sec) ≤ 20 :=
      max_le (by norm_num) (min_le_left _ _)
    exact pyRound2_bounds h1 h2

/-- Witness for C6 at the concrete 60-character narration text. -/
theorem c6_silent_fallback_duration_witness :
    "AAAAAAAAAAAAAAAAAAAAAAAAAAAAAAAAAAAAAAAAAAAAAAAAAAAAAAAAAAAA".length = 60 ∧
    safe_len_seconds "AAAAAAAAAAAAAAAAAAAAAAAAAAAAAAAAAAAAAAAAAAAAAAAAAAAAAAAAAAAA" = 10 := by
  refine ⟨by decide, ?_⟩
  exact c6_silent_fallback_duration.1 _ (by decide)

/-- Claim C1 (code evidence): with the transformer-supplied positive
estimate (10 s for a 60-character narration), `create_video` keeps the
estimate and never consults the probe, even when the probe would report a
valid different duration (7 s here) — the code prefers the estimate over
the probe, not the other way round. -/
theorem c1_estimate_preempts_probe :
    create_video_duration (some 10) 7 = some 10 ∧
    create_video_duration none 0 = none := by
  constructor
  · unfold create_video_duration
    norm_num
  · unfold create_video_duration
    norm_num

/- ======================================================================
   backend/transform/video/compositor.py — _wrap_text (caption wrapping)
   ====================================================================== -/

/-- Python strip() on a character list (whitespace removed at both ends). -/
def stripChars (l : List Char) : List Char :=
  ((l.dropWhile Char.isWhitespace).reverse.dropWhile Char.isWhitespace).reverse

/-- VideoCompositor._wrap_text lines 310-311: all line breaks are deleted
and the text stripped before wrapping
(text.replace of LF with nothing, then of CR, then strip). -/
def cleanChars (l : List Char) : List Char :=
  stripChars ((l.filter (· ≠ '\n')).filter (· ≠ '\r'))

/-- VideoCompositor._wrap_text main loop, lines 316-330: greedy
character-by-character wrap.  `widthOf` models the rendered width
(draw.textbbox) of a candidate line; `mw` is max_width. -/
def wrapLoop (widthOf : List Char → ℕ) (mw : ℕ) :
    List Char → List (List Char) → List Char → List (List Char)
  | [], lines, line => if line = [] then lines else lines ++ [line]
  | c :: cs, lines, line =>
    let test := line ++ [c]
    if widthOf test ≤ mw then wrapLoop widthOf mw cs lines test
    else if line = [] then wrapLoop widthOf mw cs lines [c]
    else wrapLoop widthOf mw cs (lines ++ [line]) [c]

/-- The list of wrapped lines produced by VideoCompositor._wrap_text. -/
def wrap_lines (widthOf : List Char → ℕ) (mw : ℕ) (text : String) :
    List (List Char) :=
  wrapLoop widthOf mw (cleanChars text.data) [] []

/-- VideoCompositor._wrap_text: returns the wrapped lines joined with LF
(empty string when the cleaned text is empty). -/
def wrap_text (widthOf : List Char → ℕ) (mw : ℕ) (text : String) : String :=
  let clean := cleanChars text.data
  if clean = [] then ""
  else String.intercalate "\n" ((wrapLoop widthOf mw clean [] []).map List.asString)

theorem wrapLoop_flatten (f : List Char → ℕ) (mw : ℕ) :
    ∀ (cs : List Char) (lines : List (List Char)) (line : List Char),
      (wrapLoop f mw cs lines line).flatten = lines.flatten ++ line ++ cs := by
  intro cs
  induction cs with
  | nil =>
    intro lines line
    by_cases h : line = [] <;> simp [wrapLoop, h]
  | cons c cs ih =>
    intro lines line
    by_cases h1 : f (line ++ [c]) ≤ mw
    · simp only [wrapLoop, if_pos h1, ih]
      simp
    · by_cases h2 : line = []
      · simp only [wrapLoop, if_neg h1, if_pos h2, ih]
        simp [h2]
      · simp only [wrapLoop, if_neg h1, if_neg h2, ih]
        simp

theorem filter_ne_idem (l : List Char) (c : Char) :
    (l.filter (· ≠ c)).filter (· ≠ c) = l.filter (· ≠ c) := by
  simp [List.filter_filter]

/-- Claim C7: greedy caption wrapping of "ABCDEFGHIJ" at a width fitting
exactly 4 characters yields the 3 lines "ABCD", "EFGH", "IJ"; in general no
character of the cleaned caption is dropped or duplicated (the
concatenation of the output lines is exactly the cleaned text), and
pre-existing line breaks are removed before wrapping (deleting the LF
characters of the input does not change the result). -/
theorem c7_caption_wrap :
    wrap_lines List.length 4 "ABCDEFGHIJ" = ["ABCD".data, "EFGH".data, "IJ".data] ∧
    wrap_text List.length 4 "ABCDEFGHIJ" = "ABCD\nEFGH\nIJ" ∧
    (∀ (f : List Char → ℕ) (mw : ℕ) (t : String),
      (wrap_lines f mw t).flatten = cleanChars t.data) ∧
    (∀ (f : List Char → ℕ) (mw : ℕ) (t : String),
      wrap_text f mw (String.mk (t.data.filter (· ≠ '\n'))) = wrap_text f mw t) := by
  refine ⟨by decide, by decide, ?_, ?_⟩
  · intro f mw t
    simp [wrap_lines, wrapLoop_flatten]
  · intro f mw t
    have hdata : (String.mk (t.data.filter (· ≠ '\n'))).data
        = t.data.filter (· ≠ '\n') := rfl
    simp only [wrap_text, hdata, cleanChars, filter_ne_idem]

/- ======================================================================
   backend/transform/text/script.py — fallback telops
   ====================================================================== -/

/-- ScriptTransformer.__init__ line 35: the configured caption character
limit, defaulting to 40. -/
def telop_max_chars (cfg : Option ℕ) : ℕ := cfg.getD 40

/-- ScriptTransformer._generate_telops fallback, line 485: the fallback
caption for one beat — the beat text as-is when at most 40 characters,
otherwise its first 40 characters followed by an ellipsis. -/
def fallback_telop_text (text : String) : String :=
  if 40 < text.length then String.mk (text.data.take 40) ++ "..." else text

/-- One entry of the fallback telop list (lines 482-489). -/
structure TelopEntry where
  beat_id : ℕ
  should_telop : Bool
  telop_text : String
  category : String
  confidence : ℚ
  reason : String
deriving DecidableEq

/-- ScriptTransformer._generate_telops fallback loop, lines 479-490. -/
def fallback_telops (texts : List String) : List TelopEntry :=
  texts.enum.map fun p =>
    { beat_id := p.1 + 1
      should_telop := true
      telop_text := fallback_telop_text p.2
      category := "FALLBACK"
      confidence := 1 / 2
      reason := "Generation failed" }

/-- Claim C8 counterexample: with the default configuration
(telop_max_chars = 40), the fallback caption of a 41-character beat text
has 43 characters, exceeding the configured limit — the fallback is not a
truncation to telop_max_chars. -/
theorem c8_counterexample :
    ¬ (fallback_telop_text "AAAAAAAAAAAAAAAAAAAAAAAAAAAAAAAAAAAAAAAAA").length
        ≤ telop_max_chars none := by
  decide

/-- Claim C8 as amended: on caption-generation failure the fallback caption
for each beat is its text unchanged when the text has at most 40
characters, and otherwise the first 40 characters followed by "..." (43
characters in total); the hard-coded threshold 40 is used regardless of the
configured telop_max_chars. -/
theorem c8_fallback_truncation :
    (∀ texts : List String,
      (fallback_telops texts).map TelopEntry.telop_text
        = texts.map fallback_telop_text) ∧
    (∀ t : String, t.length ≤ 40 → fallback_telop_text t = t) ∧
    (∀ t : String, 40 < t.length → (fallback_telop_text t).length = 43) := by
  refine ⟨?_, ?_, ?_⟩
  · intro texts
    rw [fallback_telops, List.map_map]
    have h : (texts.enum.map Prod.snd).map fallback_telop_text
        = texts.map fallback_telop_text := by rw [List.enum_map_snd]
    rw [← h, List.map_map]
    rfl
  · intro t h
    rw [fallback_telop_text, if_neg (by omega)]
  · intro t h
    rw [fallback_telop_text, if_pos h]
    have hd : (String.mk (t.data.take 40) ++ "...").data
        = t.data.take 40 ++ "...".data := rfl
    have : (String.mk (t.data.take 40) ++ "...").length
        = (t.data.take 40).length + 3 := by
      rw [String.length, hd]
      simp
    rw [this, List.length_take]
    have : t.data.length = t.length := rfl
    omega

/-- Witness for the amended C8 at concrete beat texts. -/
theorem c8_fallback_truncation_witness :
    fallback_telop_text "hi" = "hi" ∧
    (fallback_telop_text "AAAAAAAAAAAAAAAAAAAAAAAAAAAAAAAAAAAAAAAAA").length = 43 :=
  ⟨c8_fallback_truncation.2.1 "hi" (by decide),
   c8_fallback_truncation.2.2 "AAAAAAAAAAAAAAAAAAAAAAAAAAAAAAAAAAAAAAAAA" (by decide)⟩

/- ======================================================================
   backend/common/firestore.py — query_pending_transform (selectForScript)
   ====================================================================== -/

/-- A stored content record, restricted to the fields the transform query
reads.  `scriptStatus = none` models a null/unset field. -/
structure FDoc where
  docId : String
  scriptStatus : Option Bool
  scrapeStatus : String
  scraped_at : Option ℕ
deriving DecidableEq, Repr

/-- The scrapeStatus membership filter ("in" ["new", "updated"]). -/
def scrapePendingB (d : FDoc) : Bool :=
  d.scrapeStatus == "new" || d.scrapeStatus == "updated"

/-- Sort key of the final client-side sort:
d.to_dict().get("scraped_at") or 0. -/
def sortKey (d : FDoc) : ℕ := d.scraped_at.getD 0

/-- FirestoreClient.query_pending_transform, lines 119-146.  The document
store is modelled as a list streamed in store order; `.limit` is `take`,
and the final `docs.sort(key=scraped_at or 0)` is a stable sort of the
combined list by `sortKey` (Python's list.sort is stable, as is
insertion sort). -/
def query_pending_transform (store : List FDoc) (limit : Option ℕ) :
    List FDoc :=
  let q1 := store.filter fun d => (d.scriptStatus == none) && scrapePendingB d
  let docs :=
    match limit with
    | some l => if l ≠ 0 then q1.take l else q1
    | none => q1
  let docs2 :=
    match limit with
    | some l =>
      if l ≠ 0 ∧ docs.length < l then
        docs ++ (store.filter fun d =>
          (d.scriptStatus == some false) && scrapePendingB d).take (l - docs.length)
      else docs
    | none => docs
  List.insertionSort (fun a b => sortKey a ≤ sortKey b) docs2

instance : IsTotal FDoc (fun a b => sortKey a ≤ sortKey b) :=
  ⟨fun a b => Nat.le_total _ _⟩

instance : IsTrans FDoc (fun a b => sortKey a ≤ sortKey b) :=
  ⟨fun _ _ _ => Nat.le_trans⟩

/-- Claim C3 counterexample: with limit 2 and a store holding one unset
record scraped at time 10 and one previously-failed record
(scriptStatus = false) scraped at time 5, the returned list starts with the
scriptStatus = false record — the final sort by scrape time interleaves the
two groups instead of appending the false records after the unset ones. -/
theorem c3_counterexample :
    query_pending_transform
        [⟨"A", none, "new", some 10⟩, ⟨"B", some false, "new", some 5⟩]
        (some 2)
      = [⟨"B", some false, "new", some 5⟩, ⟨"A", none, "new", some 10⟩] := by
  decide

/-- Claim C3 as amended: for every store and nonzero limit, the query
returns at most `limit` records, each with scrapeStatus in
new/updated and scriptStatus either unset or false; records with
scriptStatus = false can appear only when fewer than `limit` unset records
match; but the combined result is sorted by ascending scrape time as a
whole, so false records are not necessarily after the unset ones. -/
theorem c3_query_pending_transform (store : List FDoc) (l : ℕ) (hl : l ≠ 0) :
    (query_pending_transform store (some l)).length ≤ l ∧
    (∀ d ∈ query_pending_transform store (some l),
      d.scrapeStatus = "new" ∨ d.scrapeStatus = "updated") ∧
    (∀ d ∈ query_pending_transform store (some l),
      d.scriptStatus = none ∨ d.scriptStatus = some false) ∧
    ((∃ d ∈ query_pending_transform store (some l), d.scriptStatus = some false) →
      (store.filter fun d =>
        (d.scriptStatus == none) && scrapePendingB d).length < l) ∧
    List.Sorted (fun a b => sortKey a ≤ sortKey b)
      (query_pending_transform store (some l)) := by
  have hperm :
      ∀ docs2 : List FDoc,
        List.Perm (List.insertionSort (fun a b => sortKey a ≤ sortKey b) docs2) docs2 :=
    fun docs2 => List.perm_insertionSort _ docs2
  unfold query_pending_transform
  simp only [if_pos hl]
  set q1 := store.filter
    (fun d => (d.scriptStatus == none) && scrapePendingB d) with hq1
  set q2 := store.filter
    (fun d => (d.scriptStatus == some false) && scrapePendingB d) with hq2
  set docs := q1.take l with hdocs
  by_cases hext : l ≠ 0 ∧ docs.length < l
  · simp only [if_pos hext]
    set docs2 := docs ++ q2.take (l - docs.length) with hdocs2
    have hp := hperm docs2
    refine ⟨?_, ?_, ?_, ?_, ?_⟩
    · rw [hp.length_eq, hdocs2, List.length_append]
      have h1 := List.length_take_le l q1
      have h2 := List.length_take_le (l - docs.length) q2
      omega
    · intro d hd
      have hd2 : d ∈ docs2 := hp.mem_iff.mp hd
      rw [hdocs2, List.mem_append] at hd2
      have hmem : d ∈ q1 ∨ d ∈ q2 := by
        rcases hd2 with h | h
        · exact Or.inl (List.mem_of_mem_take h)
        · exact Or.inr (List.mem_of_mem_take h)
      rcases hmem with h | h <;>
      · rw [hq1] at * <;> rw [hq2] at *
        have := (List.mem_filter.mp h).2
        simp only [Bool.and_eq_true, beq_iff_eq, Bool.or_eq_true,
          scrapePendingB] at this
        tauto
    · intro d hd
      have hd2 : d ∈ docs2 := hp.mem_iff.mp hd
      rw [hdocs2, List.mem_append] at hd2
      rcases hd2 with h | h
      · have := (List.mem_filter.mp (List.mem_of_mem_take h)).2
        simp only [Bool.and_eq_true, beq_iff_eq] at this
        exact Or.inl this.1
      · have := (List.mem_filter.mp (List.mem_of_mem_take h)).2
        simp only [Bool.and_eq_true, beq_iff_eq] at this
        exact Or.inr this.1
    · intro _
      have := hext.2
      rw [hdocs, List.length_take] at this
      omega
    · exact List.sorted_insertionSort _ _
  · simp only [if_neg hext]
    have hp := hperm docs
    have hlen : docs.length ≤ l := by
      rw [hdocs, List.length_take]; omega
    refine ⟨?_, ?_, ?_, ?_, ?_⟩
    · rw [hp.length_eq]; exact hlen
    · intro d hd
      have hd2 : d ∈ docs := hp.mem_iff.mp hd
      have := (List.mem_filter.mp (List.mem_of_mem_take hd2)).2
      simp only [Bool.and_eq_true, beq_iff_eq, Bool.or_eq_true,
        scrapePendingB] at this
      tauto
    · intro d hd
      have hd2 : d ∈ docs := hp.mem_iff.mp hd
      have := (List.mem_filter.mp (List.mem_of_mem_take hd2)).2
      simp only [Bool.and_eq_true, beq_iff_eq] at this
      exact Or.inl this.1
    · intro hex
      obtain ⟨d, hd, hfalse⟩ := hex
      have hd2 : d ∈ docs := hp.mem_iff.mp hd
      have := (List.mem_filter.mp (List.mem_of_mem_take hd2)).2
      simp only [Bool.and_eq_true, beq_iff_eq] at this
      rw [this.1] at hfalse
      exact absurd hfalse (by simp)
    · exact List.sorted_insertionSort _ _

/-- Witness for the amended C3 at a concrete store and limit. -/
theorem c3_query_pending_transform_witness :
    (2 : ℕ) ≠ 0 ∧
    (query_pending_transform
        [⟨"A", none, "new", some 10⟩, ⟨"B", some false, "new", some 5⟩]
        (some 2)).length ≤ 2 :=
  ⟨by decide,
   (c3_query_pending_transform
      [⟨"A", none, "new", some 10⟩, ⟨"B", some false, "new", some 5⟩]
      2 (by decide)).1⟩

/- ======================================================================
   Python values and dictionaries (for firestore.py and transform/main.py)
   ====================================================================== -/

mutual
/-- A Python/Firestore value as used by the pipeline: None, bool, string,
integer, the SERVER_TIMESTAMP sentinel, or a nested dictionary. -/
inductive PyVal where
  | vNone
  | vBool (b : Bool)
  | vStr (s : String)
  | vInt (n : ℤ)
  | vTimestamp
  | vDict (d : PyDict)
deriving DecidableEq
/-- A Python dictionary in insertion order. -/
inductive PyDict where
  | nil
  | cons (k : String) (v : PyVal) (rest : PyDict)
deriving DecidableEq
end

namespace PyDict

/-- d.get(key): the value of the first entry with the key, None if absent
(Python dicts never hold duplicate keys, so first = only). -/
def get : PyDict → String → PyVal
  | .nil, _ => .vNone
  | .cons k v r, key => if k = key then v else r.get key

/-- The entry for a key, if present. -/
def lookup : PyDict → String → Option PyVal
  | .nil, _ => none
  | .cons k v r, key => if k = key then some v else r.lookup key

/-- d[key] = v: replace the value of an existing entry in place, else
append a new entry. -/
def set : PyDict → String → PyVal → PyDict
  | .nil, key, v => .cons key v .nil
  | .cons k w r, key, v =>
    if k = key then .cons k v r else .cons k w (r.set key v)

/-- d.setdefault(key, v). -/
def setdefault (d : PyDict) (key : String) (v : PyVal) : PyDict :=
  match d.lookup key with
  | some _ => d
  | none => d.set key v

/-- The value of the last entry with the key (what a merge of the entries
in order leaves behind). -/
def getLast : PyDict → String → Option PyVal
  | .nil, _ => none
  | .cons k v r, key =>
    match r.getLast key with
    | some w => some w
    | none => if k = key then some v else none

/-- doc_ref.set(payload, merge=True) and update_document: each payload
field is written into the stored document, in payload order (payloads in
this code are flat, so top-level field writes model the merge). -/
def mergeInto (old : PyDict) : PyDict → PyDict
  | .nil => old
  | .cons k v r => (old.set k v).mergeInto r

/-- The key list, in order. -/
def keys : PyDict → List String
  | .nil => []
  | .cons k _ r => k :: r.keys

/-- A real Python dictionary: no duplicate keys. -/
def NodupKeys (d : PyDict) : Prop := d.keys.Nodup

/-- save_with_hash_check lines 184-187: drop protected keys whose new
value is None (PROTECT_NONE_KEYS = mulmoScript, videoUrl, videoStatus). -/
def dropProtectedNone : PyDict → PyDict
  | .nil => .nil
  | .cons k v r =>
    if (k = "mulmoScript" ∨ k = "videoUrl" ∨ k = "videoStatus") ∧ v = .vNone
    then r.dropProtectedNone
    else .cons k v (r.dropProtectedNone)

end PyDict

/-- Structural induction for PyDict alone (the mutual recursor has two
motives, which the induction tactic cannot use directly). -/
theorem PyDict.inductionOn (motive : PyDict → Prop) (hnil : motive .nil)
    (hcons : ∀ k v r, motive r → motive (.cons k v r)) : ∀ d, motive d
  | .nil => hnil
  | .cons k v r => hcons k v r (PyDict.inductionOn motive hnil hcons r)

/- Lemmas about the dictionary operations. -/

theorem PyDict.get_set (d : PyDict) (k key : String) (v : PyVal) :
    (d.set k v).get key = if k = key then v else d.get key := by
  induction d using PyDict.inductionOn with
  | hnil => simp [PyDict.set, PyDict.get]
  | hcons k2 w r ih =>
    simp only [PyDict.set]
    by_cases h : k2 = k
    · subst h
      by_cases h2 : k2 = key <;> simp [PyDict.get, h2]
    · rw [if_neg h]
      by_cases h2 : k2 = key
      · subst h2
        simp [PyDict.get, Ne.symm h]
      · simp [PyDict.get, h2, ih]

theorem PyDict.lookup_set_self (d : PyDict) (k : String) (v : PyVal) :
    (d.set k v).lookup k = some v := by
  induction d using PyDict.inductionOn with
  | hnil => simp [PyDict.set, PyDict.lookup]
  | hcons k2 w r ih =>
    simp only [PyDict.set]
    by_cases h : k2 = k <;> simp [PyDict.lookup, h, ih]

theorem PyDict.lookup_set_ne (d : PyDict) (k key : String) (v : PyVal)
    (h : k ≠ key) : (d.set k v).lookup key = d.lookup key := by
  induction d using PyDict.inductionOn with
  | hnil => simp [PyDict.set, PyDict.lookup, h]
  | hcons k2 w r ih =>
    simp only [PyDict.set]
    by_cases h2 : k2 = k
    · subst h2
      simp [PyDict.lookup, h, ih]
    · rw [if_neg h2]
      by_cases h3 : k2 = key <;> simp [PyDict.lookup, h3, ih]

theorem PyDict.getLast_eq_none_of_not_mem (d : PyDict) (key : String)
    (h : key ∉ d.keys) : d.getLast key = none := by
  induction d using PyDict.inductionOn with
  | hnil => simp [PyDict.getLast]
  | hcons k v r ih =>
    simp only [PyDict.keys, List.mem_cons] at h
    push_neg at h
    simp [PyDict.getLast, ih h.2, Ne.symm h.1]

theorem PyDict.getLast_eq_lookup (d : PyDict) (key : String)
    (h : d.NodupKeys) : d.getLast key = d.lookup key := by
  induction d using PyDict.inductionOn with
  | hnil => simp [PyDict.getLast, PyDict.lookup]
  | hcons k v r ih =>
    obtain ⟨hk, hr⟩ : k ∉ r.keys ∧ r.NodupKeys := by
      simpa [PyDict.NodupKeys, PyDict.keys, List.nodup_cons] using h
    by_cases h2 : k = key
    · subst h2
      have h1 : r.getLast k = none := r.getLast_eq_none_of_not_mem k hk
      have h3 : r.lookup k = none := by rw [← ih hr, h1]
      simp [PyDict.getLast, PyDict.lookup, h1, h3]
    · have hih := ih hr
      simp only [PyDict.getLast, PyDict.lookup, if_neg h2, hih]
      cases hl : r.lookup key <;> simp [hl]

theorem PyDict.get_mergeInto (p : PyDict) :
    ∀ (old : PyDict) (key : String),
      (old.mergeInto p).get key =
        match p.getLast key with
        | some v => v
        | none => old.get key := by
  induction p using PyDict.inductionOn with
  | hnil => intro old key; simp [PyDict.mergeInto, PyDict.getLast]
  | hcons k v r ih =>
    intro old key
    simp only [PyDict.mergeInto, PyDict.getLast, ih]
    cases hr : r.getLast key with
    | some w => simp
    | none =>
      simp only [PyDict.get_set]
      by_cases h : k = key <;> simp [h]

theorem PyDict.keys_set (d : PyDict) (k : String) (v : PyVal) :
    (d.set k v).keys = if k ∈ d.keys then d.keys else d.keys ++ [k] := by
  induction d using PyDict.inductionOn with
  | hnil => simp [PyDict.set, PyDict.keys]
  | hcons k2 w r ih =>
    simp only [PyDict.set]
    by_cases h : k2 = k
    · subst h
      simp [PyDict.keys]
    · rw [if_neg h]
      simp only [PyDict.keys, ih, List.mem_cons]
      by_cases h2 : k ∈ r.keys
      · simp [h2, Ne.symm h]
      · simp [h2, Ne.symm h]

theorem PyDict.NodupKeys.set (d : PyDict) (k : String) (v : PyVal)
    (h : d.NodupKeys) : (d.set k v).NodupKeys := by
  unfold PyDict.NodupKeys at *
  rw [PyDict.keys_set]
  by_cases h2 : k ∈ d.keys
  · simp [h2, h]
  · simp [h2, List.nodup_append, h]

theorem PyDict.keys_dropProtectedNone_sublist (d : PyDict) :
    d.dropProtectedNone.keys.Sublist d.keys := by
  induction d using PyDict.inductionOn with
  | hnil => simp [PyDict.dropProtectedNone]
  | hcons k v r ih =>
    simp only [PyDict.dropProtectedNone]
    split_ifs with h
    · exact ih.trans (List.sublist_cons_self k r.keys)
    · simpa [PyDict.keys] using ih.cons₂ k

theorem PyDict.NodupKeys.dropProtectedNone (d : PyDict)
    (h : d.NodupKeys) : d.dropProtectedNone.NodupKeys :=
  List.Nodup.sublist (PyDict.keys_dropProtectedNone_sublist d) h

theorem PyDict.nodupKeys_nil : PyDict.nil.NodupKeys := by
  simp [PyDict.NodupKeys, PyDict.keys]

theorem PyDict.set_ne_nil (d : PyDict) (k : String) (v : PyVal) :
    d.set k v ≠ .nil := by
  induction d using PyDict.inductionOn with
  | hnil => simp [PyDict.set]
  | hcons k2 w r ih =>
    simp only [PyDict.set]
    split_ifs <;> simp

/- ======================================================================
   backend/common/firestore.py — save_with_hash_check
   ====================================================================== -/

/-- FirestoreClient.save_with_hash_check, lines 152-208.  The stored state
of the one document is `stored` (none = the document does not exist); the
result is the returned string together with the document state after the
call. -/
def save_with_hash_check (stored : Option PyDict) (new_data : PyDict)
    (hash_field : String) : String × Option PyDict :=
  match stored with
  | some old =>
    if old.get hash_field = new_data.get hash_field then
      ("nochange", some old)
    else
      let payload := new_data.dropProtectedNone
      let payload := payload.set "scrapeStatus" (.vStr "updated")
      let payload := payload.set "updatedAt" .vTimestamp
      let payload := payload.set "scriptStatus" .vNone
      ("updated", some (old.mergeInto payload))
  | none =>
    let payload := new_data.set "scrapeStatus" (.vStr "new")
    let payload := payload.setdefault "scriptStatus" .vNone
    ("new", some payload)

/-- Claim C4: saving with an unchanged fingerprint mutates nothing and
reports "nochange"; saving over an existing record with a changed
fingerprint reports "updated", sets scrapeStatus to "updated" and resets
scriptStatus to unset (None); saving when no record exists reports "new"
and sets scrapeStatus to "new". -/
theorem c4_save_with_hash_check :
    (∀ (old new_data : PyDict) (hf : String),
      old.get hf = new_data.get hf →
      save_with_hash_check (some old) new_data hf = ("nochange", some old)) ∧
    (∀ (old new_data : PyDict) (hf : String),
      new_data.NodupKeys →
      old.get hf ≠ new_data.get hf →
      (save_with_hash_check (some old) new_data hf).1 = "updated" ∧
      ∃ m, (save_with_hash_check (some old) new_data hf).2 = some m ∧
        m.get "scrapeStatus" = .vStr "updated" ∧
        m.get "scriptStatus" = .vNone) ∧
    (∀ (new_data : PyDict) (hf : String),
      (save_with_hash_check none new_data hf).1 = "new" ∧
      ∃ m, (save_with_hash_check none new_data hf).2 = some m ∧
        m.get "scrapeStatus" = .vStr "new") := by
  refine ⟨?_, ?_, ?_⟩
  · intro old new_data hf h
    simp [save_with_hash_check, h]
  · intro old new_data hf hnodup hne
    set p0 := new_data.dropProtectedNone with hp0
    set p1 := p0.set "scrapeStatus" (.vStr "updated") with hp1
    set p2 := p1.set "updatedAt" .vTimestamp with hp2
    set p3 := p2.set "scriptStatus" .vNone with hp3
    have hn3 : p3.NodupKeys := by
      rw [hp3, hp2, hp1, hp0]
      exact PyDict.NodupKeys.set _ _ _ (PyDict.NodupKeys.set _ _ _
        (PyDict.NodupKeys.set _ _ _
          (PyDict.NodupKeys.dropProtectedNone _ hnodup)))
    have hscript : p3.getLast "scriptStatus" = some .vNone := by
      rw [PyDict.getLast_eq_lookup _ _ hn3, hp3, PyDict.lookup_set_self]
    have hscrape : p3.getLast "scrapeStatus" = some (.vStr "updated") := by
      rw [PyDict.getLast_eq_lookup _ _ hn3, hp3,
        PyDict.lookup_set_ne _ _ _ _ (by decide), hp2,
        PyDict.lookup_set_ne _ _ _ _ (by decide), hp1,
        PyDict.lookup_set_self]
    refine ⟨by simp [save_with_hash_check, hne], ?_⟩
    refine ⟨old.mergeInto p3, by simp [save_with_hash_check, hne], ?_, ?_⟩
    · rw [PyDict.get_mergeInto, hscrape]
    · rw [PyDict.get_mergeInto, hscript]
  · intro new_data hf
    refine ⟨rfl, ?_⟩
    set p1 := new_data.set "scrapeStatus" (.vStr "new") with hp1
    refine ⟨p1.setdefault "scriptStatus" .vNone, rfl, ?_⟩
    have hget : p1.get "scrapeStatus" = .vStr "new" := by
      rw [hp1, PyDict.get_set, if_pos rfl]
    unfold PyDict.setdefault
    cases hl : p1.lookup "scriptStatus" with
    | some w => exact hget
    | none => rw [PyDict.get_set, if_neg (by decide)]; exact hget

/-- Witness for C4 in all three cases, at concrete documents. -/
theorem c4_save_with_hash_check_witness :
    save_with_hash_check (some (PyDict.cons "contentHash" (.vStr "x") .nil))
        (PyDict.cons "contentHash" (.vStr "x") .nil) "contentHash"
      = ("nochange", some (PyDict.cons "contentHash" (.vStr "x") .nil)) ∧
    (save_with_hash_check (some PyDict.nil)
        (PyDict.cons "contentHash" (.vStr "y") .nil) "contentHash").1
      = "updated" ∧
    (save_with_hash_check none
        (PyDict.cons "contentHash" (.vStr "y") .nil) "contentHash").1
      = "new" :=
  ⟨c4_save_with_hash_check.1 _ _ _ (by decide),
   (c4_save_with_hash_check.2.1 _ _ _
      (by simp [PyDict.NodupKeys, PyDict.keys]) (by decide)).1,
   (c4_save_with_hash_check.2.2 _ _).1⟩

/- ======================================================================
   backend/transform/main.py — per-record transform loop (lines 87-116)
   ====================================================================== -/

/-- The transformed_content dictionary built by the loop: one entry per
transform that returned a result. -/
def buildContent (results : List (String × Option PyVal)) : PyDict :=
  results.foldl
    (fun acc p =>
      match p.2 with
      | some v => acc.set p.1 v
      | none => acc)
    .nil

/-- The transform_status dictionary built by the loop: "completed" for a
transform with a result, else "skipped_or_failed". -/
def buildStatus (results : List (String × Option PyVal)) : PyDict :=
  results.foldl
    (fun acc p =>
      acc.set p.1 (.vStr (match p.2 with
        | some _ => "completed"
        | none => "skipped_or_failed")))
    .nil

/-- main(), lines 104-116: when transformed_content is non-empty, the
record is updated with the content map, the status map and
scriptStatus = True; otherwise nothing is written. -/
def process_record (record : PyDict)
    (results : List (String × Option PyVal)) : PyDict :=
  let content := buildContent results
  if content = PyDict.nil then record
  else
    record.mergeInto
      (((PyDict.nil.set "transformedContent" (.vDict content)).set
          "transformStatus" (.vDict (buildStatus results))).set
        "scriptStatus" (.vBool true))

theorem buildContent_foldl_eq_nil_iff
    (results : List (String × Option PyVal)) :
    ∀ acc : PyDict,
      results.foldl
          (fun acc p =>
            match p.2 with
            | some v => acc.set p.1 v
            | none => acc)
          acc = .nil
        ↔ (acc = .nil ∧ ∀ p ∈ results, p.2 = none) := by
  induction results with
  | nil => intro acc; simp
  | cons p rest ih =>
    intro acc
    rw [List.foldl_cons]
    cases hp : p.2 with
    | some v =>
      simp only [hp, ih]
      constructor
      · rintro ⟨habs, -⟩
        exact absurd habs (PyDict.set_ne_nil _ _ _)
      · rintro ⟨-, hall⟩
        have := hall p (List.mem_cons_self p rest)
        rw [hp] at this
        exact absurd this (by simp)
    | none =>
      simp only [hp, ih]
      constructor
      · rintro ⟨hacc, hall⟩
        refine ⟨hacc, ?_⟩
        intro q hq
        rcases List.mem_cons.mp hq with rfl | hq2
        · exact hp
        · exact hall q hq2
      · rintro ⟨hacc, hall⟩
        exact ⟨hacc, fun q hq => hall q (List.mem_cons_of_mem p hq)⟩

theorem buildContent_eq_nil_iff (results : List (String × Option PyVal)) :
    buildContent results = .nil ↔ ∀ p ∈ results, p.2 = none := by
  rw [buildContent, buildContent_foldl_eq_nil_iff]
  simp

/-- Claim C9: if at least one transform produced a result, the record is
written with scriptStatus = True and the merged per-transform result map;
if none did, no update is written and the record is left exactly as it
was. -/
theorem c9_advance_after_transform :
    (∀ (record : PyDict) (results : List (String × Option PyVal)),
      (∃ p ∈ results, p.2 ≠ none) →
      (process_record record results).get "scriptStatus" = .vBool true ∧
      (process_record record results).get "transformedContent"
        = .vDict (buildContent results)) ∧
    (∀ (record : PyDict) (results : List (String × Option PyVal)),
      (∀ p ∈ results, p.2 = none) →
      process_record record results = record) := by
  constructor
  · intro record results hex
    have hne : buildContent results ≠ .nil := by
      rw [Ne, buildContent_eq_nil_iff]
      intro hall
      obtain ⟨p, hp, hne⟩ := hex
      exact hne (hall p hp)
    set u := ((PyDict.nil.set "transformedContent"
        (.vDict (buildContent results))).set
          "transformStatus" (.vDict (buildStatus results))).set
        "scriptStatus" (.vBool true) with hu
    have hnu : u.NodupKeys := by
      rw [hu]
      exact PyDict.NodupKeys.set _ _ _ (PyDict.NodupKeys.set _ _ _
        (PyDict.NodupKeys.set _ _ _ PyDict.nodupKeys_nil))
    have hscript : u.getLast "scriptStatus" = some (.vBool true) := by
      rw [PyDict.getLast_eq_lookup _ _ hnu, hu, PyDict.lookup_set_self]
    have hcontent : u.getLast "transformedContent"
        = some (.vDict (buildContent results)) := by
      rw [PyDict.getLast_eq_lookup _ _ hnu, hu,
        PyDict.lookup_set_ne _ _ _ _ (by decide),
        PyDict.lookup_set_ne _ _ _ _ (by decide),
        PyDict.lookup_set_self]
    constructor
    · rw [process_record]
      simp only [if_neg hne]
      rw [← hu, PyDict.get_mergeInto, hscript]
    · rw [process_record]
      simp only [if_neg hne]
      rw [← hu, PyDict.get_mergeInto, hcontent]
  · intro record results hall
    rw [process_record]
    simp only [if_pos ((buildContent_eq_nil_iff results).mpr hall)]

/-- Witness for C9: one succeeding transform advances the record, an
all-failing run leaves it untouched. -/
theorem c9_advance_after_transform_witness :
    (process_record PyDict.nil [("text_script", some (.vStr "s"))]).get
        "scriptStatus" = .vBool true ∧
    process_record PyDict.nil [("text_script", none)] = PyDict.nil :=
  ⟨(c9_advance_after_transform.1 PyDict.nil [("text_script", some (.vStr "s"))]
      ⟨("text_script", some (.vStr "s")), by simp⟩).1,
   c9_advance_after_transform.2 PyDict.nil [("text_script", none)]
     (by simp)⟩

/- ======================================================================
   backend/common/utils.py — JSON extraction (strip_code_fence,
   extract_json_object, parse_json_loose)
   ====================================================================== -/

/-- A parsed JSON value (the result of json.loads).  Python floats are
modelled as rationals; the non-standard NaN/Infinity extensions of the
Python parser are not modelled (no claim touches them). -/
inductive Json where
  | jnull
  | jbool (b : Bool)
  | jnum (q : ℚ)
  | jstr (s : String)
  | jarr (xs : List Json)
  | jobj (kvs : List (String × Json))

/-- JSON inter-token whitespace (space, tab, LF, CR). -/
def jsonWs (c : Char) : Bool :=
  c = ' ' || c = '\t' || c = '\n' || c = '\r'

/-- One hexadecimal digit. -/
def hexDigitVal (c : Char) : Option ℕ :=
  if '0' ≤ c ∧ c ≤ '9' then some (c.toNat - 48)
  else if 'a' ≤ c ∧ c ≤ 'f' then some (c.toNat - 87)
  else if 'A' ≤ c ∧ c ≤ 'F' then some (c.toNat - 55)
  else none

/-- The numeric value of a digit run. -/
def digitsToNat (ds : List Char) : ℕ :=
  ds.foldl (fun a c => a * 10 + (c.toNat - 48)) 0

/-- Body of a JSON string literal after the opening quote: returns the
decoded characters and the input after the closing quote.  Strict mode as
in json.loads: raw control characters are rejected; escape sequences
including \uXXXX surrogate pairs are decoded (a lone surrogate is
rejected here, where the Python parser would keep it — no claim depends
on lone surrogates).  The fuel argument only bounds recursion; one
character is consumed per step, so (length + 1) fuel never runs out. -/
def parseStrBody : ℕ → List Char → Option (List Char × List Char)
  | 0, _ => none
  | _, [] => none
  | fuel + 1, c :: rest =>
    if c = '"' then some ([], rest)
    else if c = '\\' then
      match rest with
      | [] => none
      | e :: rest2 =>
        if e = 'u' then
          match rest2 with
          | h1 :: h2 :: h3 :: h4 :: rest3 =>
            match hexDigitVal h1, hexDigitVal h2, hexDigitVal h3, hexDigitVal h4 with
            | some a, some b, some c2, some d =>
              let n := ((a * 16 + b) * 16 + c2) * 16 + d
              if 0xD800 ≤ n ∧ n < 0xDC00 then
                match rest3 with
                | '\\' :: 'u' :: g1 :: g2 :: g3 :: g4 :: rest4 =>
                  match hexDigitVal g1, hexDigitVal g2, hexDigitVal g3, hexDigitVal g4 with
                  | some a2, some b2, some c3, some d2 =>
                    let m := ((a2 * 16 + b2) * 16 + c3) * 16 + d2
                    if 0xDC00 ≤ m ∧ m < 0xE000 then
                      (parseStrBody fuel rest4).map fun p =>
                        (Char.ofNat (0x10000 + (n - 0xD800) * 0x400 + (m - 0xDC00)) :: p.1, p.2)
                    else none
                  | _, _, _, _ => none
                | _ => none
              else if 0xDC00 ≤ n ∧ n < 0xE000 then none
              else
                (parseStrBody fuel rest3).map fun p => (Char.ofNat n :: p.1, p.2)
            | _, _, _, _ => none
          | _ => none
        else
          match
            (if e = '"' then some '"'
             else if e = '\\' then some '\\'
             else if e = '/' then some '/'
             else if e = 'b' then some '\x08'
             else if e = 'f' then some '\x0C'
             else if e = 'n' then some '\n'
             else if e = 'r' then some '\r'
             else if e = 't' then some '\t'
             else none) with
          | some d => (parseStrBody fuel rest2).map fun p => (d :: p.1, p.2)
          | none => none
    else if c.toNat < 0x20 then none
    else (parseStrBody fuel rest).map fun p => (c :: p.1, p.2)

/-- A JSON number (strict grammar: optional minus, integer part without
leading zeros, optional fraction, optional exponent), returning its
rational value and the rest of the input.  A malformed tail such as the
dot of "1." is left unconsumed, making the top-level parse fail on the
trailing input, exactly as the Python scanner does. -/
def parseNumber (cs : List Char) : Option (ℚ × List Char) :=
  let signed :=
    match cs with
    | '-' :: r => (true, r)
    | _ => (false, cs)
  let neg := signed.1
  let cs1 := signed.2
  match cs1 with
  | [] => none
  | c :: _ =>
    if ¬ c.isDigit then none
    else
      let ipr :=
        if c = '0' then ([c], cs1.tail)
        else (cs1.takeWhile Char.isDigit, cs1.dropWhile Char.isDigit)
      let intv : ℚ := (digitsToNat ipr.1 : ℚ)
      let fvr :=
        match ipr.2 with
        | '.' :: d :: r =>
          if d.isDigit then
            (((digitsToNat ((d :: r).takeWhile Char.isDigit) : ℚ) /
                (10 : ℚ) ^ ((d :: r).takeWhile Char.isDigit).length),
              (d :: r).dropWhile Char.isDigit)
          else ((0 : ℚ), ipr.2)
        | _ => ((0 : ℚ), ipr.2)
      let evr :=
        match fvr.2 with
        | e :: '+' :: d :: r =>
          if (e = 'e' ∨ e = 'E') ∧ d.isDigit then
            (((digitsToNat ((d :: r).takeWhile Char.isDigit) : ℤ)),
              (d :: r).dropWhile Char.isDigit)
          else ((0 : ℤ), fvr.2)
        | e :: '-' :: d :: r =>
          if (e = 'e' ∨ e = 'E') ∧ d.isDigit then
            ((-(digitsToNat ((d :: r).takeWhile Char.isDigit) : ℤ)),
              (d :: r).dropWhile Char.isDigit)
          else ((0 : ℤ), fvr.2)
        | e :: d :: r =>
          if (e = 'e' ∨ e = 'E') ∧ d.isDigit then
            (((digitsToNat ((d :: r).takeWhile Char.isDigit) : ℤ)),
              (d :: r).dropWhile Char.isDigit)
          else ((0 : ℤ), fvr.2)
        | _ => ((0 : ℤ), fvr.2)
      let q : ℚ := (intv + fvr.1) * (10 : ℚ) ^ evr.1
      some (if neg then -q else q, evr.2)

/-- Replace-or-append on an association list: the semantics of assigning
to a Python dict key (first occurrence keeps its position, value of the
last assignment wins). -/
def setPair : List (String × Json) → String → Json → List (String × Json)
  | [], k, v => [(k, v)]
  | (k2, w) :: r, k, v =>
    if k2 = k then (k2, v) :: r else (k2, w) :: setPair r k v

mutual
/-- A JSON value, with leading whitespace skipped (json.loads grammar).
Fuel only bounds the recursion depth; every nesting level consumes input,
so the callers' fuel (2·length + 2) never runs out. -/
def parseValue : ℕ → List Char → Option (Json × List Char)
  | 0, _ => none
  | fuel + 1, cs =>
    match cs.dropWhile jsonWs with
    | 't' :: 'r' :: 'u' :: 'e' :: rest => some (.jbool true, rest)
    | 'f' :: 'a' :: 'l' :: 's' :: 'e' :: rest => some (.jbool false, rest)
    | 'n' :: 'u' :: 'l' :: 'l' :: rest => some (.jnull, rest)
    | '"' :: rest =>
      (parseStrBody (rest.length + 1) rest).map fun p => (.jstr p.1.asString, p.2)
    | '[' :: rest =>
      (match rest.dropWhile jsonWs with
       | ']' :: rest2 => some (.jarr [], rest2)
       | _ => (parseArrayItems fuel rest).map fun p => (.jarr p.1, p.2))
    | '\x7b' :: rest =>
      (match rest.dropWhile jsonWs with
       | '\x7d' :: rest2 => some (.jobj [], rest2)
       | _ =>
         (parseObjItems fuel rest).map fun p =>
           (.jobj (p.1.foldl (fun acc kv => setPair acc kv.1 kv.2) []), p.2))
    | rest => (parseNumber rest).map fun p => (.jnum p.1, p.2)

/-- Comma-separated JSON values up to the closing bracket. -/
def parseArrayItems : ℕ → List Char → Option (List Json × List Char)
  | 0, _ => none
  | fuel + 1, cs =>
    match parseValue fuel cs with
    | none => none
    | some (v, rest) =>
      match rest.dropWhile jsonWs with
      | ',' :: rest2 =>
        (parseArrayItems fuel rest2).map fun p => (v :: p.1, p.2)
      | ']' :: rest2 => some ([v], rest2)
      | _ => none

/-- Comma-separated string-key members up to the closing brace. -/
def parseObjItems : ℕ → List Char → Option (List (String × Json) × List Char)
  | 0, _ => none
  | fuel + 1, cs =>
    match cs.dropWhile jsonWs with
    | '"' :: rest =>
      match parseStrBody (rest.length + 1) rest with
      | none => none
      | some (key, rest2) =>
        match rest2.dropWhile jsonWs with
        | ':' :: rest3 =>
          match parseValue fuel rest3 with
          | none => none
          | some (v, rest4) =>
            match rest4.dropWhile jsonWs with
            | ',' :: rest5 =>
              (parseObjItems fuel rest5).map fun p =>
                ((key.asString, v) :: p.1, p.2)
            | '\x7d' :: rest5 => some ([(key.asString, v)], rest5)
            | _ => none
        | _ => none
    | _ => none
end

/-- json.loads: parse one JSON document, requiring only whitespace after
it. -/
def jsonParse (s : String) : Option Json :=
  match parseValue (2 * s.data.length + 2) s.data with
  | some (v, rest) => if rest.dropWhile jsonWs = [] then some v else none
  | none => none

/-- extract_json_object inner scan (utils.py lines 110-133): depth
counting from a given start, tracking string literals and
backslash-escapes; returns the balanced object slice (accumulated in
reverse in `acc`) as soon as the depth returns to zero. -/
def scanStep : List Char → ℤ → Bool → Bool → List Char → Option (List Char)
  | [], _, _, _, _ => none
  | c :: rest, depth, inStr, esc, acc =>
    if inStr then
      if esc then scanStep rest depth true false (c :: acc)
      else if c = '\\' then scanStep rest depth true true (c :: acc)
      else if c = '"' then scanStep rest depth false false (c :: acc)
      else scanStep rest depth true false (c :: acc)
    else
      if c = '"' then scanStep rest depth true false (c :: acc)
      else if c = '\x7b' then scanStep rest (depth + 1) false false (c :: acc)
      else if c = '\x7d' then
        if depth - 1 = 0 then some (c :: acc).reverse
        else scanStep rest (depth - 1) false false (c :: acc)
      else scanStep rest depth false false (c :: acc)

/-- extract_json_object outer loop (lines 108-135): try the scan from
each successive opening brace. -/
def extractLoop : List Char → Option (List Char)
  | [] => none
  | c :: rest =>
    if c = '\x7b' then
      match scanStep (c :: rest) 0 false false [] with
      | some obj => some obj
      | none => extractLoop rest
    else extractLoop rest

/-- extract_json_object (utils.py lines 95-137): the first balanced JSON
object slice of the text, None when there is none. -/
def extract_json_object (s : String) : Option String :=
  if s = "" then none
  else (extractLoop s.data).map List.asString

/-- Python str.strip() (via the same character-level strip used by the
compositor embedding). -/
def pyStrip (s : String) : String := (stripChars s.data).asString

/-- Trailing \s* of a captured fence body (the lazy group leaves trailing
whitespace to the following \s*). -/
def dropTrailingWs (l : List Char) : List Char :=
  (l.reverse.dropWhile Char.isWhitespace).reverse

/-- The closing fence of the anchored pattern: the first position whose
three backticks are followed by whitespace only (the \s*$ tail). -/
def findCloseAnchored : List Char → Option (List Char)
  | [] => none
  | c :: rest =>
    if ['\x60', '\x60', '\x60'].isPrefixOf (c :: rest)
        ∧ ((c :: rest).drop 3).all Char.isWhitespace then
      some []
    else (findCloseAnchored rest).map (c :: ·)

/-- The closing fence of the unanchored pattern: the first three
backticks. -/
def findCloseAnywhere : List Char → Option (List Char)
  | [] => none
  | c :: rest =>
    if ['\x60', '\x60', '\x60'].isPrefixOf (c :: rest) then some []
    else (findCloseAnywhere rest).map (c :: ·)

/-- One alternative of the optional json/JSON language tag, then greedy
\s*, then the lazily captured body up to an anchored closing fence. -/
def fenceBodyAnchored (after : List Char) (lang : List Char) :
    Option (List Char) :=
  if lang.isPrefixOf after then
    (findCloseAnchored ((after.drop lang.length).dropWhile Char.isWhitespace)).map
      dropTrailingWs
  else none

/-- Same for the unanchored pattern. -/
def fenceBodyAnywhere (after : List Char) (lang : List Char) :
    Option (List Char) :=
  if lang.isPrefixOf after then
    (findCloseAnywhere ((after.drop lang.length).dropWhile Char.isWhitespace)).map
      dropTrailingWs
  else none

/-- The anchored pattern of strip_code_fence (entire text is one fenced
block, modulo surrounding whitespace): leading \s*, three backticks, the
language-tag alternatives in regex preference order, body, closing fence,
trailing whitespace. -/
def anchoredFence (cs : List Char) : Option (List Char) :=
  let cs1 := cs.dropWhile Char.isWhitespace
  if ['\x60', '\x60', '\x60'].isPrefixOf cs1 then
    let after := cs1.drop 3
    match fenceBodyAnchored after "json".data with
    | some b => some b
    | none =>
      match fenceBodyAnchored after "JSON".data with
      | some b => some b
      | none => fenceBodyAnchored after []
  else none

/-- The unanchored search of strip_code_fence: the leftmost opening fence
admitting a match, trying the tag alternatives at each. -/
def searchFence : List Char → Option (List Char)
  | [] => none
  | c :: rest =>
    if ['\x60', '\x60', '\x60'].isPrefixOf (c :: rest) then
      match fenceBodyAnywhere ((c :: rest).drop 3) "json".data with
      | some b => some b
      | none =>
        match fenceBodyAnywhere ((c :: rest).drop 3) "JSON".data with
        | some b => some b
        | none =>
          match fenceBodyAnywhere ((c :: rest).drop 3) [] with
          | some b => some b
          | none => searchFence rest
    else searchFence rest

/-- strip_code_fence (utils.py lines 67-92): drop a markdown code fence —
the whole-text anchored form first, else the first fenced block anywhere,
else the text unchanged. -/
def strip_code_fence (s : String) : String :=
  if s = "" then s
  else
    match anchoredFence s.data with
    | some body => body.asString
    | none =>
      match searchFence s.data with
      | some body => body.asString
      | none => s

/-- parse_json_loose lines 166-176: extract a balanced object slice and
parse it; empty dict on any failure. -/
def parse_json_loose_fallback (t : String) : List (String × Json) :=
  match extract_json_object t with
  | none => []
  | some frag =>
    if frag = "" then []
    else
      match jsonParse frag with
      | some (.jobj kvs) => kvs
      | _ => []

/-- parse_json_loose (utils.py lines 140-176): strip, remove fences,
parse; a dict is returned as-is, a non-empty list whose first element is a
dict yields that first element; otherwise fall back to the balanced-slice
extraction; every failure path yields the empty dict. -/
def parse_json_loose (s : String) : List (String × Json) :=
  if s = "" then []
  else
    match jsonParse (strip_code_fence (pyStrip s)) with
    | some (.jobj kvs) => kvs
    | some (.jarr (.jobj kvs :: _)) => kvs
    | _ => parse_json_loose_fallback (strip_code_fence (pyStrip s))

/-- Claim C2 counterexample: the extractor's no-structure result is the
empty dictionary, which is exactly the result of successfully parsing the
text of an empty object — the two are not distinct, even though the input
"no json here" contains no structure at all. -/
theorem c2_counterexample :
    extract_json_object "no json here" = none ∧
    parse_json_loose "no json here" = parse_json_loose "\x7b\x7d" :=
  ⟨rfl, rfl⟩

/-- Claim C2 as amended: parse_json_loose is total — it returns a
dictionary for every input (all parse failures are caught), and
extract_json_object returns an explicit None on structure-free input,
distinct from its result on an empty object; but parse_json_loose maps
both the structure-free input and the empty object to the same empty
dictionary, so at the parse level the failure result is not distinct. -/
theorem c2_extractor_never_throws :
    (∀ s : String, parse_json_loose s = [] ∨
      ∃ k v kvs, parse_json_loose s = (k, v) :: kvs) ∧
    extract_json_object "no json here" = none ∧
    extract_json_object "\x7b\x7d" = some "\x7b\x7d" ∧
    parse_json_loose "no json here" = [] ∧
    parse_json_loose "\x7b\x7d" = [] := by
  refine ⟨?_, rfl, rfl, rfl, rfl⟩
  intro s
  cases h : parse_json_loose s with
  | nil => exact Or.inl rfl
  | cons p rest => exact Or.inr ⟨p.1, p.2, rest, by simp [h]⟩


/-- Claim C10: whenever the fence-stripped input parses as a JSON array
whose first element is an object, parse_json_loose returns that first
object. -/
theorem c10_array_first_object (s : String) (kvs : List (String × Json))
    (rest : List Json)
    (h : jsonParse (strip_code_fence (pyStrip s))
      = some (.jarr (.jobj kvs :: rest))) :
    parse_json_loose s = kvs := by
  have hs : ¬ s = "" := by
    intro he
    rw [he] at h
    rw [show strip_code_fence (pyStrip "") = "" from rfl,
      show jsonParse "" = none from rfl] at h
    cases h
  unfold parse_json_loose
  rw [if_neg hs, h]

/-- Witness for C10 at a concrete array-of-object input. -/
theorem c10_array_first_object_witness :
    jsonParse (strip_code_fence (pyStrip "[\x7b\"a\": true\x7d, false]"))
      = some (.jarr (.jobj [("a", .jbool true)] :: [.jbool false])) ∧
    parse_json_loose "[\x7b\"a\": true\x7d, false]" = [("a", .jbool true)] :=
  ⟨rfl, c10_array_first_object _ _ _ rfl⟩

/- ======================================================================
   backend/common/utils.py — compute_quick_hash (content fingerprint)
   ====================================================================== -/

/-- Reduction to a 32-bit word. -/
def w32 (n : ℕ) : ℕ := n % 4294967296

/-- 32-bit right rotation. -/
def rotr (k x : ℕ) : ℕ := w32 ((x >>> k) ||| (x <<< (32 - k)))

/-- The SHA-256 round constants. -/
def shaK : List ℕ :=
  [1116352408, 1899447441, 3049323471, 3921009573, 961987163,
    1508970993, 2453635748, 2870763221, 3624381080, 310598401,
    607225278, 1426881987, 1925078388, 2162078206, 2614888103,
    3248222580, 3835390401, 4022224774, 264347078, 604807628, 770255983,
    1249150122, 1555081692, 1996064986, 2554220882, 2821834349,
    2952996808, 3210313671, 3336571891, 3584528711, 113926993,
    338241895, 666307205, 773529912, 1294757372, 1396182291, 1695183700,
    1986661051, 2177026350, 2456956037, 2730485921, 2820302411,
    3259730800, 3345764771, 3516065817, 3600352804, 4094571909,
    275423344, 430227734, 506948616, 659060556, 883997877, 958139571,
    1322822218, 1537002063, 1747873779, 1955562222, 2024104815,
    2227730452, 2361852424, 2428436474, 2756734187, 3204031479,
    3329325298]

/-- The eight SHA-256 working words. -/
structure Sha256State where
  a : ℕ
  b : ℕ
  c : ℕ
  d : ℕ
  e : ℕ
  f : ℕ
  g : ℕ
  h : ℕ

/-- The SHA-256 initial hash value. -/
def sha256init : Sha256State :=
  ⟨1779033703, 3144134277, 1013904242, 2773480762, 1359893119, 2600822924, 528734635, 1541459225⟩

/-- A 64-bit big-endian length field. -/
def lengthBytes (n : ℕ) : List ℕ :=
  [n / 2 ^ 56 % 256, n / 2 ^ 48 % 256, n / 2 ^ 40 % 256, n / 2 ^ 32 % 256,
   n / 2 ^ 24 % 256, n / 2 ^ 16 % 256, n / 2 ^ 8 % 256, n % 256]

/-- SHA-256 message padding. -/
def sha256pad (msg : List ℕ) : List ℕ :=
  msg ++ [0x80] ++ List.replicate ((119 - msg.length % 64) % 64) 0
    ++ lengthBytes (8 * msg.length)

/-- The padded message split into 64-byte blocks. -/
def chunks64 (l : List ℕ) : List (List ℕ) :=
  if h : l = [] then []
  else l.take 64 :: chunks64 (l.drop 64)
termination_by l.length
decreasing_by
  simp only [List.length_drop]
  have : 0 < l.length := List.length_pos.mpr h
  omega

/-- Big-endian 32-bit words of one block. -/
def toWords : List ℕ → List ℕ
  | b0 :: b1 :: b2 :: b3 :: rest =>
    (((b0 * 256 + b1) * 256 + b2) * 256 + b3) :: toWords rest
  | _ => []

/-- The SHA-256 message-schedule extension (48 extra words). -/
def extendW : ℕ → List ℕ → List ℕ
  | 0, w => w
  | k + 1, w =>
    let i := w.length
    let x15 := w.getD (i - 15) 0
    let x2 := w.getD (i - 2) 0
    let s0 := (rotr 7 x15) ^^^ (rotr 18 x15) ^^^ (x15 >>> 3)
    let s1 := (rotr 17 x2) ^^^ (rotr 19 x2) ^^^ (x2 >>> 10)
    extendW k (w ++ [w32 (w.getD (i - 16) 0 + s0 + w.getD (i - 7) 0 + s1)])

/-- One SHA-256 compression round. -/
def compressRound (st : Sha256State) (kw : ℕ × ℕ) : Sha256State :=
  let S1 := (rotr 6 st.e) ^^^ (rotr 11 st.e) ^^^ (rotr 25 st.e)
  let ch := (st.e &&& st.f) ^^^ ((st.e ^^^ 0xFFFFFFFF) &&& st.g)
  let temp1 := w32 (st.h + S1 + ch + kw.1 + kw.2)
  let S0 := (rotr 2 st.a) ^^^ (rotr 13 st.a) ^^^ (rotr 22 st.a)
  let maj := (st.a &&& st.b) ^^^ (st.a &&& st.c) ^^^ (st.b &&& st.c)
  let temp2 := w32 (S0 + maj)
  ⟨w32 (temp1 + temp2), st.a, st.b, st.c, w32 (st.d + temp1), st.e, st.f, st.g⟩

/-- SHA-256 compression of one block. -/
def compressBlock (st : Sha256State) (block : List ℕ) : Sha256State :=
  let w := extendW 48 (toWords block)
  let fin := (shaK.zip w).foldl compressRound st
  ⟨w32 (st.a + fin.a), w32 (st.b + fin.b), w32 (st.c + fin.c),
   w32 (st.d + fin.d), w32 (st.e + fin.e), w32 (st.f + fin.f),
   w32 (st.g + fin.g), w32 (st.h + fin.h)⟩

/-- The SHA-256 state after hashing a byte string. -/
def sha256words (msg : List ℕ) : Sha256State :=
  (chunks64 (sha256pad msg)).foldl compressBlock sha256init

/-- Lower-case hex digit. -/
def hexDigitChar (n : ℕ) : Char :=
  if n < 10 then Char.ofNat (48 + n) else Char.ofNat (87 + n)

/-- A 32-bit word as 8 hex characters. -/
def hex8 (w : ℕ) : String :=
  String.mk [hexDigitChar (w / 16 ^ 7 % 16), hexDigitChar (w / 16 ^ 6 % 16),
    hexDigitChar (w / 16 ^ 5 % 16), hexDigitChar (w / 16 ^ 4 % 16),
    hexDigitChar (w / 16 ^ 3 % 16), hexDigitChar (w / 16 ^ 2 % 16),
    hexDigitChar (w / 16 % 16), hexDigitChar (w % 16)]

/-- hashlib.sha256(..).hexdigest(): the 64-character digest. -/
def sha256hex (msg : List ℕ) : String :=
  let st := sha256words msg
  hex8 st.a ++ hex8 st.b ++ hex8 st.c ++ hex8 st.d
    ++ hex8 st.e ++ hex8 st.f ++ hex8 st.g ++ hex8 st.h

/-- UTF-8 encoding of one character. -/
def utf8Char (c : Char) : List ℕ :=
  let n := c.toNat
  if n < 0x80 then [n]
  else if n < 0x800 then [0xC0 + n / 64, 0x80 + n % 64]
  else if n < 0x10000 then
    [0xE0 + n / 4096, 0x80 + n / 64 % 64, 0x80 + n % 64]
  else
    [0xF0 + n / 262144, 0x80 + n / 4096 % 64, 0x80 + n / 64 % 64,
     0x80 + n % 64]

/-- str.encode of Python: the UTF-8 bytes of a string. -/
def utf8Bytes (s : String) : List ℕ := (s.data.map utf8Char).flatten

/-- sorted(set(links)) of Python: the deduplicated link list in ascending
lexicographic order. -/
def sortedSet (links : List String) : List String :=
  List.insertionSort (· ≤ ·) links.dedup

/-- compute_quick_hash (utils.py lines 33-60): the content fingerprint —
SHA-256 over the newline-joined normalized title, date and body plus the
tagged sorted link sets. -/
def compute_quick_hash (body_text : String)
    (pdf_links image_links : List String)
    (page_title published_date : String) : String :=
  let base := String.intercalate "\n"
    ([pyStrip page_title, pyStrip published_date, pyStrip body_text, "|PDFS|"]
      ++ sortedSet pdf_links ++ (["|IMGS|"] ++ sortedSet image_links))
  sha256hex (utf8Bytes base)

theorem hex8_length (w : ℕ) : (hex8 w).length = 8 := rfl

theorem sha256hex_length (msg : List ℕ) : (sha256hex msg).length = 64 := by
  simp [sha256hex, String.length_append, hex8_length]

theorem sortedSet_eq_of_mem_iff (l1 l2 : List String)
    (h : ∀ x, x ∈ l1 ↔ x ∈ l2) : sortedSet l1 = sortedSet l2 := by
  apply List.eq_of_perm_of_sorted ?_ (List.sorted_insertionSort _ _)
    (List.sorted_insertionSort _ _)
  have hd : List.Perm l1.dedup l2.dedup := by
    apply List.perm_of_nodup_nodup_toFinset_eq (List.nodup_dedup l1)
      (List.nodup_dedup l2)
    ext x
    simp [List.mem_toFinset, List.mem_dedup, h x]
  exact (List.perm_insertionSort _ _).trans
    (hd.trans (List.perm_insertionSort _ _).symm)

/-- Claim C5: the fingerprint is a fixed-length (64 hex character) digest
that does not change when either link list is reordered or has elements
duplicated (same underlying set of links), and as a pure function it is
identical on identical normalized inputs across runs. -/
theorem c5_compute_quick_hash (title pub body : String)
    (pdf1 pdf2 img1 img2 : List String)
    (hp : ∀ x, x ∈ pdf1 ↔ x ∈ pdf2) (hi : ∀ x, x ∈ img1 ↔ x ∈ img2) :
    compute_quick_hash body pdf1 img1 title pub
      = compute_quick_hash body pdf2 img2 title pub ∧
    (compute_quick_hash body pdf1 img1 title pub).length = 64 := by
  constructor
  · unfold compute_quick_hash
    rw [sortedSet_eq_of_mem_iff pdf1 pdf2 hp,
      sortedSet_eq_of_mem_iff img1 img2 hi]
  · unfold compute_quick_hash
    exact sha256hex_length _

/-- Witness for C5: a permuted-and-duplicated PDF link list gives the same
fingerprint. -/
theorem c5_compute_quick_hash_witness :
    (∀ x : String, x ∈ ["b", "a", "a"] ↔ x ∈ ["a", "b"]) ∧
    compute_quick_hash "body" ["b", "a", "a"] ["i"] "t" "d"
      = compute_quick_hash "body" ["a", "b"] ["i"] "t" "d" :=
  have hp : ∀ x : String, x ∈ ["b", "a", "a"] ↔ x ∈ ["a", "b"] := by
    intro x
    simp only [List.mem_cons, List.not_mem_nil, or_false]
    tauto
  ⟨hp, (c5_compute_quick_hash "t" "d" "body" ["b", "a", "a"] ["a", "b"]
      ["i"] ["i"] hp (fun x => Iff.rfl)).1⟩
